import Mathlib

/-!
Shallow embedding of the xRelay proxy-pool core (proxy-manager, the database
access layer, proxy-tester, proxy-fetcher and request-handler) together with
theorems settling the specification claims about it.

Timestamps (`CURRENT_TIMESTAMP`, `Date.now()`) are modelled by an explicit
`now : Nat` parameter.  JavaScript numbers used as weights and random draws
are modelled by `ℚ`.  The database tables are modelled as lists of rows; the
`UNIQUE(ip, port)` constraints of the schema are not needed by the proofs
because every SQL statement involved updates or deletes all matching rows.
-/

namespace XRelay

/-- Candidate relay as produced by proxy-fetcher (`ProxyInfo`); the port is kept
as a string exactly as in the source. -/
structure ProxyInfo where
  ip : String
  port : String
  source : String
  timestamp : Nat
deriving DecidableEq, Repr

/-- Row of the `xrelay.available_proxies` table (`AvailableProxy`). -/
structure AvailableProxy where
  ip : String
  port : Nat
  source : String
  failure_count : Nat
  success_count : Nat
  last_used_at : Option Nat
  last_checked_at : Option Nat
  created_at : Nat
  updated_at : Nat
deriving DecidableEq, Repr

/-- Row of the `xrelay.deprecated_proxies` table (`DeprecatedProxy`). -/
structure DeprecatedProxy where
  ip : String
  port : Nat
  source : String
  protocol : String
  failure_count : Nat
  created_at : Nat
  deprecated_at : Nat
deriving DecidableEq, Repr

/-- State of the durable (relational) store: the two tables of the schema. -/
structure DbState where
  available : List AvailableProxy
  deprecated : List DeprecatedProxy
deriving DecidableEq, Repr

/-- Model of JavaScript `parseInt(s, 10)` for the non-negative inputs occurring
here: the longest leading run of decimal digits is parsed; `none` models `NaN`
(no leading digit). -/
def parseIntTen (s : String) : Option Nat :=
  let ds := s.data.takeWhile Char.isDigit
  if ds.isEmpty then none
  else some (ds.foldl (fun acc c => acc * 10 + (c.toNat - 48)) 0)

/-- Key string `ip:port` built from a candidate, as used by the source's
template literals on `ProxyInfo` values. -/
def infoKey (p : ProxyInfo) : String := p.ip ++ ":" ++ p.port

/-- Key string `ip:port` built from a deprecated row, where the numeric port is
rendered in decimal by the template literal. -/
def depKeyStr (d : DeprecatedProxy) : String := d.ip ++ ":" ++ toString d.port

/-- Boolean `WHERE ip = $1 AND port = $2` match on an available row. -/
def keyMatch (ip : String) (port : Nat) (p : AvailableProxy) : Bool :=
  p.ip = ip && p.port = port

/-- Boolean `WHERE ip = $1 AND port = $2` match on a deprecated row. -/
def depKeyMatch (ip : String) (port : Nat) (d : DeprecatedProxy) : Bool :=
  d.ip = ip && d.port = port

/-- Lookup of the available row at a key (first matching row). -/
def findAvail (st : DbState) (ip : String) (port : Nat) : Option AvailableProxy :=
  st.available.find? (keyMatch ip port)

/-- Lookup of the deprecated row at a key (first matching row). -/
def findDeprecated (st : DbState) (ip : String) (port : Nat) : Option DeprecatedProxy :=
  st.deprecated.find? (depKeyMatch ip port)

/-- DAO `incrementFailureCount`: `UPDATE available_proxies SET failure_count =
failure_count + 1, updated_at = now WHERE ip AND port RETURNING *`; the source
returns `result.rows[0] || null`, modelled as the head of the updated rows. -/
def incrementFailureCount (ip : String) (port : Nat) (now : Nat) (st : DbState) :
    Option AvailableProxy × DbState :=
  let upd := fun p : AvailableProxy =>
    if keyMatch ip port p then
      { p with failure_count := p.failure_count + 1, updated_at := now }
    else p
  let available := st.available.map upd
  ((available.filter (keyMatch ip port)).head?, { st with available := available })

/-- DAO `incrementSuccessCount`: `UPDATE available_proxies SET success_count =
success_count + 1, last_used_at = now, updated_at = now WHERE ip AND port
RETURNING *`. -/
def incrementSuccessCount (ip : String) (port : Nat) (now : Nat) (st : DbState) :
    Option AvailableProxy × DbState :=
  let upd := fun p : AvailableProxy =>
    if keyMatch ip port p then
      { p with success_count := p.success_count + 1, last_used_at := some now,
               updated_at := now }
    else p
  let available := st.available.map upd
  ((available.filter (keyMatch ip port)).head?, { st with available := available })

/-- DAO `deleteProxy`: `DELETE FROM available_proxies WHERE ip AND port`. -/
def deleteProxy (ip : String) (port : Nat) (st : DbState) : DbState :=
  { st with available := st.available.filter (fun p => !keyMatch ip port p) }

/-- DAO `insertDeprecatedProxy`: `INSERT INTO deprecated_proxies ... ON CONFLICT
(ip, port) DO UPDATE SET failure_count = EXCLUDED.failure_count, deprecated_at =
CURRENT_TIMESTAMP`.  A fresh insert takes `deprecated_at` from the column
default `CURRENT_TIMESTAMP` (design.md schema). -/
def insertDeprecatedProxy (ip : String) (port : Nat) (source protocol : String)
    (failCount : Nat) (createdAt : Nat) (now : Nat) (st : DbState) : DbState :=
  if st.deprecated.any (depKeyMatch ip port) then
    { st with deprecated := st.deprecated.map (fun d =>
        if depKeyMatch ip port d then
          { d with failure_count := failCount, deprecated_at := now }
        else d) }
  else
    { st with deprecated :=
        st.deprecated ++ [⟨ip, port, source, protocol, failCount, createdAt, now⟩] }

/-- Proxy-manager `reportProxyFailedToDatabase`: increment the failure count;
when the proxy row does not exist, return early; when the new count reaches
`DATABASE_CONFIG.failureThreshold`, insert into the deprecated table and delete
from the available table within the same call.  `parseInt` yielding `NaN`
(modelled by `none`) makes the UPDATE fail, which the surrounding catch turns
into an unchanged state. -/
def reportProxyFailedToDatabase (proxy : ProxyInfo) (threshold now : Nat)
    (st : DbState) : DbState :=
  match parseIntTen proxy.port with
  | none => st
  | some port =>
    match incrementFailureCount proxy.ip port now st with
    | (none, st1) => st1
    | (some updated, st1) =>
      if threshold ≤ updated.failure_count then
        let st2 := insertDeprecatedProxy updated.ip updated.port updated.source
          "http" updated.failure_count updated.created_at now st1
        deleteProxy updated.ip updated.port st2
      else st1

/-- Variant of `reportProxyFailedToDatabase` with an error injected between the
insert into `deprecated_proxies` and the delete from `available_proxies`.  In
the source these are two independent auto-commit statements (the `transaction`
helper of connection.ts is imported by the DAO but never used), so an error at
that point leaves the insert committed and the delete unexecuted; the
surrounding catch merely logs. -/
def reportProxyFailedCrash (proxy : ProxyInfo) (threshold now : Nat)
    (failBetween : Bool) (st : DbState) : DbState :=
  match parseIntTen proxy.port with
  | none => st
  | some port =>
    match incrementFailureCount proxy.ip port now st with
    | (none, st1) => st1
    | (some updated, st1) =>
      if threshold ≤ updated.failure_count then
        let st2 := insertDeprecatedProxy updated.ip updated.port updated.source
          "http" updated.failure_count updated.created_at now st1
        if failBetween then st2
        else deleteProxy updated.ip updated.port st2
      else st1

/-- Proxy-manager `reportProxySuccessToDatabase`: increments the success count
(the returned row is ignored). -/
def reportProxySuccessToDatabase (proxy : ProxyInfo) (now : Nat) (st : DbState) :
    DbState :=
  match parseIntTen proxy.port with
  | none => st
  | some port => (incrementSuccessCount proxy.ip port now st).2

/-- Proxy-tester `moveUnreachableProxyToDeprecated` (database branch): inserts
the proxy into `deprecated_proxies` with `failure_count` set to the threshold
and `created_at` from the candidate's timestamp.  The function issues no
statement against `available_proxies`. -/
def moveUnreachableProxyToDeprecated (proxy : ProxyInfo) (threshold now : Nat)
    (st : DbState) : DbState :=
  match parseIntTen proxy.port with
  | none => st
  | some port =>
    insertDeprecatedProxy proxy.ip port proxy.source "http" threshold
      proxy.timestamp now st

/-- DAO `calculateWeight`: `success_count / (success_count + failure_count + 1)`,
computed in `ℚ` (JavaScript number division). -/
def calculateWeight (p : AvailableProxy) : ℚ :=
  (p.success_count : ℚ) / ((p.success_count : ℚ) + (p.failure_count : ℚ) + 1)

/-- Inner walk of `getWeightedProxies`: starting from the drawn value, subtract
the weights in order; the first position where the running value drops to `≤ 0`
is returned.  `none` models the walk falling off the end of the list (the
`break` never fires). -/
def walkIdx : ℚ → List ℚ → Option Nat
  | _, [] => none
  | r, w :: ws => if r - w ≤ 0 then some 0 else (walkIdx (r - w) ws).map (· + 1)

/-- Index selected by one draw of `getWeightedProxies`: the source initialises
`index = 0` and only overwrites it when the walk fires, so a walk that falls
off the end leaves index `0`. -/
def pickIndex (r : ℚ) (ws : List ℚ) : Nat := (walkIdx r ws).getD 0

/-- Selection loop of `getWeightedProxies`: `count` iterations (or until the
remaining list is empty); each iteration draws `rand i * totalWeight` where
`totalWeight` is the total computed once over the full pool, picks the item at
`pickIndex` and splices it out of the remaining list.  `rand i` models the
value of the i-th `Math.random()` call. -/
def selectLoop (rand : Nat → ℚ) (total : ℚ) : Nat → Nat → List AvailableProxy →
    List AvailableProxy
  | 0, _, _ => []
  | _ + 1, _, [] => []
  | k + 1, i, p0 :: rest =>
    (p0 :: rest).getD (pickIndex (rand i * total) ((p0 :: rest).map calculateWeight)) p0
      :: selectLoop rand total k (i + 1)
          ((p0 :: rest).eraseIdx
            (pickIndex (rand i * total) ((p0 :: rest).map calculateWeight)))

/-- Permutation oracle for the zero-weight branch: the source shuffles with
`sort(() => Math.random() - 0.5)`, whose comparator ignores the elements; the
resulting rearrangement is modelled as an index list applied to the pool. -/
def applyPerm (perm : List Nat) (l : List AvailableProxy) : List AvailableProxy :=
  perm.filterMap l.get?

/-- DAO `getWeightedProxies(count)`: empty pool returns `[]`; zero total weight
falls back to a random shuffle and a `slice(0, min(count, length))`; otherwise
the weighted selection loop runs with the total weight of the full pool. -/
def getWeightedProxies (count : Nat) (proxies : List AvailableProxy)
    (rand : Nat → ℚ) (perm : List Nat) : List AvailableProxy :=
  if proxies.isEmpty then []
  else if (proxies.map calculateWeight).sum = 0 then
    (applyPerm perm proxies).take (min count (applyPerm perm proxies).length)
  else
    selectLoop rand ((proxies.map calculateWeight).sum) count 0 proxies

/-- Modelled from the spec: walk of §4.3's weighted-sample-without-replacement
algorithm, selecting the item at which the running weight sum exceeds the
drawn value. -/
def specWalkIdx : ℚ → List ℚ → Nat
  | _, [] => 0
  | u, w :: ws => if u < w then 0 else specWalkIdx (u - w) ws + 1

/-- Modelled from the spec: §4.3's algorithm — repeat `k` times: draw
`u ~ Uniform(0, ΣwL)` over the CURRENT remaining list's total (`rand i` scaled
by the reduced total), select the item where the running sum exceeds `u`,
remove it, and continue with the reduced list and reduced total. -/
def getWeightedSampleSpec (rand : Nat → ℚ) : Nat → Nat → List AvailableProxy →
    List AvailableProxy
  | 0, _, _ => []
  | _ + 1, _, [] => []
  | k + 1, i, p0 :: rest =>
    (p0 :: rest).getD
        (specWalkIdx (rand i * ((p0 :: rest).map calculateWeight).sum)
          ((p0 :: rest).map calculateWeight)) p0
      :: getWeightedSampleSpec rand k (i + 1)
          ((p0 :: rest).eraseIdx
            (specWalkIdx (rand i * ((p0 :: rest).map calculateWeight).sum)
              ((p0 :: rest).map calculateWeight)))

/-- State of the in-memory (volatile) proxy pool (`proxyPool` in
proxy-manager). -/
structure MemPoolState where
  availableProxies : List ProxyInfo
  lastRefreshTime : Nat
  refreshCount : Nat
deriving DecidableEq, Repr

/-- Proxy-manager `reportProxyFailedToMemory`: filters out of the pool every
entry whose `ip:port` string equals the failed proxy's. -/
def reportProxyFailedToMemory (proxy : ProxyInfo) (st : MemPoolState) : MemPoolState :=
  { st with availableProxies :=
      st.availableProxies.filter (fun p => infoKey p ≠ infoKey proxy) }

/-- State of proxy-fetcher's module-level cache. -/
structure FetcherState where
  cachedProxies : List ProxyInfo
  lastFetchTime : Nat
deriving DecidableEq, Repr

/-- Proxy-fetcher `deduplicateProxies`: keeps the first-seen entry per
`ip:port` key. -/
def dedupGo (seen : List String) : List ProxyInfo → List ProxyInfo
  | [] => []
  | p :: rest =>
    if seen.contains (infoKey p) then dedupGo seen rest
    else p :: dedupGo (infoKey p :: seen) rest

/-- Proxy-fetcher `deduplicateProxies` entry point. -/
def deduplicateProxies (proxies : List ProxyInfo) : List ProxyInfo :=
  dedupGo [] proxies

/-- Proxy-fetcher `fetchAllProxies`: when the cache is non-empty and the last
fetch is within the refresh interval, the cached list is returned and no feed
is contacted; otherwise the per-feed results (a failed feed contributes `[]`)
are merged, de-duplicated and cached.  The boolean records whether the network
was used. -/
def fetchAllProxies (now interval : Nat) (feedResults : List (List ProxyInfo))
    (st : FetcherState) : List ProxyInfo × FetcherState × Bool :=
  if 0 < st.cachedProxies.length ∧ now - st.lastFetchTime < interval then
    (st.cachedProxies, st, false)
  else
    let uniq := deduplicateProxies feedResults.flatten
    (uniq, ⟨uniq, now⟩, true)

/-- Row built by `loadProxiesFromPool` for insertion (`failure_count: 0,
success_count: 0`; `created_at`/`updated_at` from the schema's column
defaults). -/
def mkInsertRow (p : ProxyInfo) (port now : Nat) : AvailableProxy :=
  ⟨p.ip, port, p.source, 0, 0, none, none, now, now⟩

/-- DAO `batchInsertProxies`: one INSERT with `ON CONFLICT (ip, port) DO
NOTHING`; a row conflicting with the table or with an earlier row of the same
statement is skipped. -/
def batchInsertProxies (rows : List AvailableProxy) (st : DbState) : DbState :=
  rows.foldl (fun acc r =>
    if acc.available.any (keyMatch r.ip r.port) then acc
    else { acc with available := acc.available ++ [r] }) st

/-- Proxy-manager `loadProxiesFromPool` (refill into the database): fetch
candidates, build the deprecated key-string set, filter candidates by exact
key-string membership, and batch-insert the remainder.  A candidate port that
`parseInt`s to `NaN` makes the INSERT fail, which the surrounding catch turns
into an unchanged state. -/
def loadProxiesFromPool (allProxies : List ProxyInfo) (now : Nat) (st : DbState) :
    DbState :=
  if allProxies.isEmpty then st
  else
    let depKeys := st.deprecated.map depKeyStr
    let filtered := allProxies.filter (fun p => !depKeys.contains (infoKey p))
    if filtered.all (fun p => (parseIntTen p.port).isSome) then
      batchInsertProxies
        (filtered.map (fun p => mkInsertRow p ((parseIntTen p.port).getD 0) now)) st
    else st

/-- Outcome of one network delivery (`sendRequestWithProxy` or
`sendRequestDirect`), reduced to the fields the dispatch logic consumes. -/
structure SimpleResult where
  success : Bool
  data : Option String
  status : Option Nat
deriving DecidableEq, Repr

/-- Response record of request-handler (`ProxyResponse`); headers are not
modelled. -/
structure ProxyResponse where
  success : Bool
  data : Option String
  status : Option Nat
  proxyUsed : Bool
  proxyIp : Option String
  proxySuccess : Bool
  fallbackUsed : Bool
  error : Option String
deriving DecidableEq, Repr

/-- Sequential proxy-attempt loop of `sendProxyRequest`: up to `k` iterations;
`getProxy i` models what `getAvailableProxy()` returns on iteration `i` (a
`none` breaks the loop), `attempt i` the outcome of delivering through that
proxy.  Returns the first success together with its proxy. -/
def proxyLoop (getProxy : Nat → Option ProxyInfo) (attempt : Nat → SimpleResult) :
    Nat → Nat → Option (ProxyInfo × SimpleResult)
  | 0, _ => none
  | k + 1, i =>
    match getProxy i with
    | none => none
    | some p =>
      let r := attempt i
      if r.success then some (p, r) else proxyLoop getProxy attempt k (i + 1)

/-- Request-handler `sendProxyRequest` in sequential mode.  The `direct`
argument models the outcome `sendRequestDirect` would produce; the second
component counts how many direct (no-relay) network calls to the target URL
were actually issued. -/
def sendProxyRequest (maxProxyAttempts : Nat) (useFallback : Bool)
    (getProxy : Nat → Option ProxyInfo) (attempt : Nat → SimpleResult)
    (direct : SimpleResult) : ProxyResponse × Nat :=
  match proxyLoop getProxy attempt maxProxyAttempts 0 with
  | some (p, r) =>
    ({ success := true, data := r.data, status := r.status, proxyUsed := true,
       proxyIp := some (infoKey p), proxySuccess := true, fallbackUsed := false,
       error := none }, 0)
  | none =>
    if useFallback then
      if direct.success then
        ({ success := true, data := direct.data, status := direct.status,
           proxyUsed := false, proxyIp := none, proxySuccess := false,
           fallbackUsed := true, error := none }, 1)
      else
        ({ success := false, data := none, status := none, proxyUsed := false,
           proxyIp := none, proxySuccess := false, fallbackUsed := true,
           error := some "proxy failed and direct failed" }, 1)
    else
      ({ success := false, data := none, status := none, proxyUsed := false,
         proxyIp := none, proxySuccess := false, fallbackUsed := false,
         error := some "all proxy attempts failed" }, 0)

/-! Helper lemmas about the list operations used by the embedding. -/

theorem find?_eq_head?_filter {α} (p : α → Bool) :
    ∀ l : List α, l.find? p = (l.filter p).head? := by
  intro l
  induction l with
  | nil => rfl
  | cons a t ih =>
    cases h : p a
    · rw [List.find?_cons_of_neg t (by simp [h]), List.filter_cons_of_neg (by simp [h]), ih]
    · rw [List.find?_cons_of_pos t h, List.filter_cons_of_pos h, List.head?_cons]

theorem filter_map_ite {α} (m : α → Bool) (f : α → α) (hf : ∀ a, m (f a) = m a) :
    ∀ l : List α,
      (l.map (fun a => if m a then f a else a)).filter m = (l.filter m).map f := by
  intro l
  induction l with
  | nil => rfl
  | cons a t ih =>
    by_cases h : m a = true
    · simp [List.filter, h, hf, ih]
    · simp only [Bool.not_eq_true] at h
      simp [List.filter, h, ih]

theorem find?_map_ite {α} (m : α → Bool) (f : α → α) (hf : ∀ a, m (f a) = m a)
    (l : List α) :
    (l.map (fun a => if m a then f a else a)).find? m = (l.find? m).map f := by
  rw [find?_eq_head?_filter, find?_eq_head?_filter, filter_map_ite m f hf,
    List.head?_map]

theorem mem_map_ite_of_neg {α} (m : α → Bool) (f : α → α) {l : List α} {a : α}
    (ha : a ∈ l) (hm : m a = false) :
    a ∈ l.map (fun a => if m a then f a else a) := by
  refine List.mem_map.2 ⟨a, ha, ?_⟩
  simp [hm]

theorem find?_filter_not {α} (m : α → Bool) (l : List α) :
    (l.filter (fun a => !m a)).find? m = none := by
  refine List.find?_eq_none.2 (fun x hx => ?_)
  rcases List.mem_filter.1 hx with ⟨-, hx2⟩
  simp only [Bool.not_eq_true'] at hx2
  simp [hx2]

theorem getD_eq_get {α} (l : List α) (d : α) (n : Nat) (h : n < l.length) :
    l.getD n d = l.get ⟨n, h⟩ := by
  simp [List.getD_eq_getElem?_getD, List.getElem?_eq_getElem h]

theorem range_filterMap_get? {α} :
    ∀ l : List α, (List.range l.length).filterMap l.get? = l := by
  intro l
  induction l with
  | nil => rfl
  | cons a t ih =>
    show (List.range (t.length + 1)).filterMap (a :: t).get? = a :: t
    have h0 : (a :: t).get? 0 = some a := rfl
    rw [List.range_succ_eq_map, List.filterMap_cons_some h0,
      List.filterMap_map]
    have hcomp : (a :: t).get? ∘ Nat.succ = t.get? := funext fun i => rfl
    rw [hcomp, ih]

theorem applyPerm_perm (perm : List Nat) (l : List AvailableProxy)
    (h : perm.Perm (List.range l.length)) : (applyPerm perm l).Perm l := by
  have h1 := List.Perm.filterMap l.get? h
  rw [range_filterMap_get? l] at h1
  exact h1

theorem walkIdx_lt :
    ∀ (ws : List ℚ) (r : ℚ) (j : Nat), walkIdx r ws = some j → j < ws.length := by
  intro ws
  induction ws with
  | nil => intro r j h; simp [walkIdx] at h
  | cons w t ih =>
    intro r j h
    by_cases hc : r - w ≤ 0
    · simp only [walkIdx, if_pos hc, Option.some.injEq] at h
      subst h
      simp
    · simp only [walkIdx, if_neg hc, Option.map_eq_some'] at h
      rcases h with ⟨j0, hj0, rfl⟩
      have := ih (r - w) j0 hj0
      simp only [List.length_cons]
      omega

theorem pickIndex_lt (r : ℚ) (ws : List ℚ) (h : ws ≠ []) :
    pickIndex r ws < ws.length := by
  unfold pickIndex
  cases hw : walkIdx r ws with
  | none =>
    simp only [Option.getD_none]
    exact List.length_pos.2 h
  | some j =>
    simpa using walkIdx_lt ws r j hw

theorem get_not_mem_eraseIdx {α} (l : List α) (hl : l.Nodup) (k : Nat)
    (hk : k < l.length) : l.get ⟨k, hk⟩ ∉ l.eraseIdx k := by
  intro hmem
  rcases List.mem_eraseIdx_iff_getElem.1 hmem with ⟨i, hi, hik, hval⟩
  exact hik ((hl.getElem_inj_iff).1 hval)

/-! Characterisations of the DAO mutations. -/

theorem keyMatch_eq_true_iff (ip : String) (port : Nat) (p : AvailableProxy) :
    keyMatch ip port p = true ↔ p.ip = ip ∧ p.port = port := by
  simp [keyMatch]

theorem incrementFailureCount_found (ip : String) (port now : Nat) (st : DbState)
    (r : AvailableProxy) (hr : findAvail st ip port = some r) :
    incrementFailureCount ip port now st =
      (some { r with failure_count := r.failure_count + 1, updated_at := now },
       { st with available := st.available.map (fun p =>
           if keyMatch ip port p then
             { p with failure_count := p.failure_count + 1, updated_at := now }
           else p) }) := by
  have hf : ∀ p : AvailableProxy,
      keyMatch ip port
        ({ p with failure_count := p.failure_count + 1, updated_at := now }) =
      keyMatch ip port p := fun p => rfl
  have hfind : findAvail st ip port = st.available.find? (keyMatch ip port) := rfl
  simp only [incrementFailureCount]
  rw [← find?_eq_head?_filter, find?_map_ite _ _ hf, ← hfind, hr, Option.map_some']

theorem incrementSuccessCount_found (ip : String) (port now : Nat) (st : DbState)
    (r : AvailableProxy) (hr : findAvail st ip port = some r) :
    incrementSuccessCount ip port now st =
      (some { r with success_count := r.success_count + 1, last_used_at := some now,
                     updated_at := now },
       { st with available := st.available.map (fun p =>
           if keyMatch ip port p then
             { p with success_count := p.success_count + 1, last_used_at := some now,
                      updated_at := now }
           else p) }) := by
  have hf : ∀ p : AvailableProxy,
      keyMatch ip port
        ({ p with success_count := p.success_count + 1, last_used_at := some now,
                  updated_at := now }) =
      keyMatch ip port p := fun p => rfl
  have hfind : findAvail st ip port = st.available.find? (keyMatch ip port) := rfl
  simp only [incrementSuccessCount]
  rw [← find?_eq_head?_filter, find?_map_ite _ _ hf, ← hfind, hr, Option.map_some']

theorem insertDeprecatedProxy_available (ip : String) (port : Nat)
    (source protocol : String) (failCount createdAt now : Nat) (st : DbState) :
    (insertDeprecatedProxy ip port source protocol failCount createdAt now st).available
      = st.available := by
  unfold insertDeprecatedProxy
  split <;> rfl

theorem findDeprecated_insertDeprecatedProxy (ip : String) (port : Nat)
    (source protocol : String) (failCount createdAt now : Nat) (st : DbState) :
    ((insertDeprecatedProxy ip port source protocol failCount createdAt now
        st).deprecated.find? (depKeyMatch ip port)).map (·.failure_count)
      = some failCount := by
  have hg : ∀ d : DeprecatedProxy,
      depKeyMatch ip port ({ d with failure_count := failCount, deprecated_at := now })
        = depKeyMatch ip port d := fun d => rfl
  unfold insertDeprecatedProxy
  by_cases h : st.deprecated.any (depKeyMatch ip port) = true
  · rw [if_pos h]
    rcases List.any_eq_true.1 h with ⟨d0, hd0, hmatch⟩
    have hsome : (st.deprecated.find? (depKeyMatch ip port)).isSome :=
      List.find?_isSome.2 ⟨d0, hd0, hmatch⟩
    rcases Option.isSome_iff_exists.1 hsome with ⟨d1, hd1⟩
    simp only [find?_map_ite _ _ hg, hd1, Option.map_some']
  · rw [if_neg h]
    have hnone : st.deprecated.find? (depKeyMatch ip port) = none := by
      refine List.find?_eq_none.2 (fun d hd => ?_)
      intro hcontra
      exact h (List.any_eq_true.2 ⟨d, hd, hcontra⟩)
    simp only [List.find?_append, hnone, Option.none_or]
    have : depKeyMatch ip port
        (⟨ip, port, source, protocol, failCount, createdAt, now⟩ : DeprecatedProxy)
        = true := by simp [depKeyMatch]
    simp [List.find?, this]

theorem deleteProxy_findAvail (ip : String) (port : Nat) (st : DbState) :
    findAvail (deleteProxy ip port st) ip port = none := by
  unfold findAvail deleteProxy
  exact find?_filter_not _ _

/-! Claim theorems. -/

/-- C1: for an available relay record, `reportProxyFailedToDatabase` increments
the record's failure_count by exactly 1, and when the incremented value reaches
the configured threshold the very same call inserts the record into the
deprecated table and deletes it from the available table; below the threshold
the record stays available with the incremented count and the deprecated table
is untouched. -/
theorem c1_reportFailure_increments_and_deprecates
    (proxy : ProxyInfo) (threshold now : Nat) (st : DbState)
    (port : Nat) (r : AvailableProxy)
    (hport : parseIntTen proxy.port = some port)
    (hr : findAvail st proxy.ip port = some r) :
    (r.failure_count + 1 < threshold →
        findAvail (reportProxyFailedToDatabase proxy threshold now st) proxy.ip port
          = some { r with failure_count := r.failure_count + 1, updated_at := now } ∧
        (reportProxyFailedToDatabase proxy threshold now st).deprecated
          = st.deprecated) ∧
    (threshold ≤ r.failure_count + 1 →
        findAvail (reportProxyFailedToDatabase proxy threshold now st) proxy.ip port
          = none ∧
        (findDeprecated (reportProxyFailedToDatabase proxy threshold now st)
            proxy.ip port).map (·.failure_count) = some (r.failure_count + 1)) := by
  have hkey : keyMatch proxy.ip port r = true := List.find?_some hr
  rcases (keyMatch_eq_true_iff _ _ _).1 hkey with ⟨hip, hpt⟩
  have hf : ∀ p : AvailableProxy,
      keyMatch proxy.ip port
        ({ p with failure_count := p.failure_count + 1, updated_at := now }) =
      keyMatch proxy.ip port p := fun p => rfl
  have hinc := incrementFailureCount_found proxy.ip port now st r hr
  have hfind2 : findAvail
      { st with available := st.available.map (fun p =>
          if keyMatch proxy.ip port p then
            { p with failure_count := p.failure_count + 1, updated_at := now }
          else p) } proxy.ip port
      = some { r with failure_count := r.failure_count + 1, updated_at := now } := by
    show (st.available.map _).find? _ = _
    rw [find?_map_ite _ _ hf, show st.available.find? (keyMatch proxy.ip port)
      = some r from hr, Option.map_some']
  constructor
  · intro hlt
    have hth : ¬ threshold ≤ r.failure_count + 1 := by omega
    simp only [reportProxyFailedToDatabase, hport, hinc, if_neg hth]
    exact ⟨hfind2, trivial⟩
  · intro hge
    simp only [reportProxyFailedToDatabase, hport, hinc, if_pos hge]
    rw [← hip, ← hpt]
    exact ⟨deleteProxy_findAvail _ _ _,
      findDeprecated_insertDeprecatedProxy r.ip r.port r.source "http"
        (r.failure_count + 1) r.created_at now _⟩

/-- C8: for an available relay record, `reportProxySuccessToDatabase`
increments success_count by exactly 1, leaves failure_count and the record's
(address, port) identity unchanged, keeps every other available row, and does
not touch the deprecated table. -/
theorem c8_reportSuccess_frame
    (proxy : ProxyInfo) (now : Nat) (st : DbState)
    (port : Nat) (r : AvailableProxy)
    (hport : parseIntTen proxy.port = some port)
    (hr : findAvail st proxy.ip port = some r) :
    findAvail (reportProxySuccessToDatabase proxy now st) proxy.ip port
      = some { r with success_count := r.success_count + 1, last_used_at := some now,
                      updated_at := now } ∧
    (reportProxySuccessToDatabase proxy now st).deprecated = st.deprecated ∧
    (∀ q ∈ st.available, keyMatch proxy.ip port q = false →
        q ∈ (reportProxySuccessToDatabase proxy now st).available) := by
  have hf : ∀ p : AvailableProxy,
      keyMatch proxy.ip port
        ({ p with success_count := p.success_count + 1, last_used_at := some now,
                  updated_at := now }) =
      keyMatch proxy.ip port p := fun p => rfl
  have hinc := incrementSuccessCount_found proxy.ip port now st r hr
  simp only [reportProxySuccessToDatabase, hport, hinc]
  refine ⟨?_, trivial, ?_⟩
  · show (st.available.map _).find? _ = _
    rw [find?_map_ite _ _ hf, show st.available.find? (keyMatch proxy.ip port)
      = some r from hr, Option.map_some']
  · intro q hq hnm
    exact mem_map_ite_of_neg _ _ hq hnm

/-- Fixture for the C1 witness: a record one failure away from the default
threshold 10. -/
def w1row : AvailableProxy := ⟨"9.9.9.9", 8000, "ProxyScrape", 9, 4, none, none, 3, 3⟩

/-- Fixture for the C1 witness: the database containing only `w1row`. -/
def w1st : DbState := ⟨[w1row], []⟩

/-- Fixture for the C1 witness: the candidate handle for `w1row`. -/
def w1proxy : ProxyInfo := ⟨"9.9.9.9", "8000", "ProxyScrape", 3⟩

/-- Witness for C1 at a concrete input: a record with failure_count 9 and
threshold 10 is deprecated and removed from the available table by the single
`reportProxyFailedToDatabase` call. -/
theorem c1_witness :
    findAvail (reportProxyFailedToDatabase w1proxy 10 100 w1st) "9.9.9.9" 8000
      = none ∧
    (findDeprecated (reportProxyFailedToDatabase w1proxy 10 100 w1st)
        "9.9.9.9" 8000).map (·.failure_count) = some 10 :=
  (c1_reportFailure_increments_and_deprecates w1proxy 10 100 w1st 8000 w1row
    (by decide) (by decide)).2 (by decide)

/-- Fixture for the C8 witness. -/
def w8row : AvailableProxy := ⟨"9.9.9.9", 8000, "ProxyScrape", 9, 4, none, none, 3, 3⟩

/-- Fixture for the C8 witness: the database containing only `w8row`. -/
def w8st : DbState := ⟨[w8row], []⟩

/-- Fixture for the C8 witness: the candidate handle for `w8row`. -/
def w8proxy : ProxyInfo := ⟨"9.9.9.9", "8000", "ProxyScrape", 3⟩

/-- Witness for C8 at a concrete input: a success report bumps success_count
from 4 to 5 and leaves failure_count at 9. -/
theorem c8_witness :
    findAvail (reportProxySuccessToDatabase w8proxy 100 w8st) "9.9.9.9" 8000
      = some ⟨"9.9.9.9", 8000, "ProxyScrape", 9, 5, some 100, none, 3, 100⟩ :=
  (c8_reportSuccess_frame w8proxy 100 w8st 8000 w8row (by decide) (by decide)).1

/-- Fixture for C2: an available record that will fail its reachability
check. -/
def w2row : AvailableProxy := ⟨"5.6.7.8", 3128, "FreeProxyList", 0, 2, none, none, 0, 0⟩

/-- Fixture for C2: the candidate handle for `w2row`. -/
def w2proxy : ProxyInfo := ⟨"5.6.7.8", "3128", "FreeProxyList", 7⟩

/-- Fixture for C2: the database containing only `w2row`, with an empty
deprecated table. -/
def w2st : DbState := ⟨[w2row], []⟩

/-- C2: evaluation at the failing input.  `moveUnreachableProxyToDeprecated`
inserts the pair into the deprecated table but issues no delete against the
available table, so afterwards (5.6.7.8, 3128) is present in BOTH sets,
violating the claimed invariant. -/
theorem c2_unreachable_path_leaves_pair_in_both_sets :
    ((moveUnreachableProxyToDeprecated w2proxy 10 100 w2st).available.any
        (keyMatch "5.6.7.8" 3128)) = true ∧
    ((moveUnreachableProxyToDeprecated w2proxy 10 100 w2st).deprecated.any
        (depKeyMatch "5.6.7.8" 3128)) = true := by
  decide

/-- Fixture for C3: a record at failure_count 9 with threshold 10, so the next
failure report triggers the deprecation transition. -/
def w3row : AvailableProxy := ⟨"9.9.9.9", 8000, "ProxyScrape", 9, 4, none, none, 3, 3⟩

/-- Fixture for C3: the candidate handle for `w3row`. -/
def w3proxy : ProxyInfo := ⟨"9.9.9.9", "8000", "ProxyScrape", 3⟩

/-- Fixture for C3: the database containing only `w3row`. -/
def w3st : DbState := ⟨[w3row], []⟩

/-- C3: evaluation at the failing input.  The deprecation transition of
`reportProxyFailedToDatabase` runs as two separate auto-commit statements; an
error between the insert and the delete leaves the pair in BOTH tables and the
state changed, contradicting the claimed single-transaction behaviour
(unchanged state on error). -/
theorem c3_transition_not_atomic :
    ((reportProxyFailedCrash w3proxy 10 100 true w3st).available.any
        (keyMatch "9.9.9.9" 8000)) = true ∧
    ((reportProxyFailedCrash w3proxy 10 100 true w3st).deprecated.any
        (depKeyMatch "9.9.9.9" 8000)) = true ∧
    reportProxyFailedCrash w3proxy 10 100 true w3st ≠ w3st := by
  decide

/-- C10: in the in-memory (volatile) variant, a single `reportProxyFailedToMemory`
call immediately removes every pool entry matching the failed relay's
`ip:port`, keeps every non-matching entry, and changes nothing else of the
pool state; the function consults no failure counter and no threshold and
creates no deprecated record (its state carries neither). -/
theorem c10_memory_failure_removes_immediately
    (proxy : ProxyInfo) (st : MemPoolState) :
    (∀ p ∈ (reportProxyFailedToMemory proxy st).availableProxies,
        ¬(p.ip = proxy.ip ∧ p.port = proxy.port)) ∧
    (∀ p ∈ st.availableProxies, infoKey p ≠ infoKey proxy →
        p ∈ (reportProxyFailedToMemory proxy st).availableProxies) ∧
    (reportProxyFailedToMemory proxy st).lastRefreshTime = st.lastRefreshTime ∧
    (reportProxyFailedToMemory proxy st).refreshCount = st.refreshCount := by
  refine ⟨?_, ?_, rfl, rfl⟩
  · intro p hp ⟨hip, hpt⟩
    have hmem := List.mem_filter.1 hp
    have : infoKey p = infoKey proxy := by
      unfold infoKey
      rw [hip, hpt]
    simp [this] at hmem
  · intro p hp hne
    exact List.mem_filter.2 ⟨hp, by simpa using hne⟩

/-- Fixture for the C10 witness: a pool with one matching and one
non-matching entry. -/
def w10keep : ProxyInfo := ⟨"2.2.2.2", "81", "FreeProxyList", 1⟩

/-- Fixture for the C10 witness: the failed relay. -/
def w10fail : ProxyInfo := ⟨"1.1.1.1", "80", "ProxyScrape", 0⟩

/-- Fixture for the C10 witness: the in-memory pool state. -/
def w10st : MemPoolState := ⟨[w10fail, w10keep], 42, 7⟩

/-- Witness for C10 at a concrete input: the non-matching entry survives and
the refresh metadata is untouched. -/
theorem c10_witness :
    w10keep ∈ (reportProxyFailedToMemory w10fail w10st).availableProxies ∧
    (reportProxyFailedToMemory w10fail w10st).lastRefreshTime = 42 :=
  ⟨(c10_memory_failure_removes_immediately w10fail w10st).2.1 w10keep
      (by decide) (by decide),
    (c10_memory_failure_removes_immediately w10fail w10st).2.2.1.trans rfl⟩

/-- C9: when a non-empty cached candidate list exists whose fetch time is
within the refresh interval, `fetchAllProxies` returns that cached list as-is,
leaves the cache state unchanged, and performs no network call to any feed. -/
theorem c9_cache_hit_bypasses_network
    (now interval : Nat) (feedResults : List (List ProxyInfo)) (st : FetcherState)
    (hne : 0 < st.cachedProxies.length)
    (hfresh : now - st.lastFetchTime < interval) :
    fetchAllProxies now interval feedResults st = (st.cachedProxies, st, false) := by
  unfold fetchAllProxies
  rw [if_pos ⟨hne, hfresh⟩]

/-- Fixture for the C9 witness: a cached candidate. -/
def w9cand : ProxyInfo := ⟨"3.3.3.3", "8080", "ProxyScrape", 1000⟩

/-- Fixture for the C9 witness: a fresh cache state. -/
def w9st : FetcherState := ⟨[w9cand], 1000⟩

/-- Witness for C9 at a concrete input: a fresh non-empty cache is returned
without touching the network. -/
theorem c9_witness :
    fetchAllProxies 1500 300000 [[]] w9st = ([w9cand], w9st, false) :=
  c9_cache_hit_bypasses_network 1500 300000 [[]] w9st (by decide) (by decide)

/-- C6: in sequential mode, when the proxy-attempt phase produces no success
(every candidate attempt failed, or no candidate was available), then with
`useFallback = true` the request is issued directly exactly once and the
result is tagged `fallbackUsed: true, proxyUsed: false`, while with
`useFallback = false` a terminal failure is returned and no direct network
call to the target URL is made. -/
theorem c6_fallback_policy
    (maxProxyAttempts : Nat) (useFallback : Bool)
    (getProxy : Nat → Option ProxyInfo) (attempt : Nat → SimpleResult)
    (direct : SimpleResult)
    (hfail : proxyLoop getProxy attempt maxProxyAttempts 0 = none) :
    (useFallback = true →
        (sendProxyRequest maxProxyAttempts useFallback getProxy attempt direct).2 = 1 ∧
        (sendProxyRequest maxProxyAttempts useFallback getProxy attempt direct).1.fallbackUsed
          = true ∧
        (sendProxyRequest maxProxyAttempts useFallback getProxy attempt direct).1.proxyUsed
          = false ∧
        (sendProxyRequest maxProxyAttempts useFallback getProxy attempt direct).1.success
          = direct.success) ∧
    (useFallback = false →
        (sendProxyRequest maxProxyAttempts useFallback getProxy attempt direct).2 = 0 ∧
        (sendProxyRequest maxProxyAttempts useFallback getProxy attempt direct).1.success
          = false ∧
        (sendProxyRequest maxProxyAttempts useFallback getProxy attempt direct).1.fallbackUsed
          = false) := by
  constructor
  · intro hu
    subst hu
    simp only [sendProxyRequest, hfail, if_true]
    cases hd : direct.success <;> simp [hd]
  · intro hu
    subst hu
    simp [sendProxyRequest, hfail]

/-- Witness for C6 at a concrete input: zero available relays and fallback
disabled give a terminal failure with no direct call. -/
theorem c6_witness :
    (sendProxyRequest 3 false (fun _ => none) (fun _ => ⟨false, none, none⟩)
        ⟨true, some "body", some 200⟩).2 = 0 ∧
    (sendProxyRequest 3 false (fun _ => none) (fun _ => ⟨false, none, none⟩)
        ⟨true, some "body", some 200⟩).1.success = false :=
  ⟨((c6_fallback_policy 3 false (fun _ => none) (fun _ => ⟨false, none, none⟩)
      ⟨true, some "body", some 200⟩ (by decide)).2 rfl).1,
   ((c6_fallback_policy 3 false (fun _ => none) (fun _ => ⟨false, none, none⟩)
      ⟨true, some "body", some 200⟩ (by decide)).2 rfl).2.1⟩

theorem batchInsertProxies_mem :
    ∀ (rows : List AvailableProxy) (st : DbState),
      ∀ q ∈ (batchInsertProxies rows st).available, q ∈ st.available ∨ q ∈ rows := by
  intro rows
  induction rows with
  | nil => intro st q hq; exact Or.inl hq
  | cons r rest ih =>
    intro st q hq
    have hstep : batchInsertProxies (r :: rest) st
        = batchInsertProxies rest
            (if st.available.any (keyMatch r.ip r.port) then st
             else { st with available := st.available ++ [r] }) := by
      simp only [batchInsertProxies, List.foldl_cons]
    rw [hstep] at hq
    rcases ih _ q hq with h1 | h1
    · by_cases hc : st.available.any (keyMatch r.ip r.port) = true
      · rw [if_pos hc] at h1
        exact Or.inl h1
      · rw [if_neg hc] at h1
        rcases List.mem_append.1 h1 with h2 | h2
        · exact Or.inl h2
        · simp only [List.mem_singleton] at h2
          exact Or.inr (by simp [h2])
    · exact Or.inr (List.mem_cons_of_mem _ h1)

theorem loadProxiesFromPool_deprecated (cands : List ProxyInfo) (now : Nat)
    (st : DbState) : (loadProxiesFromPool cands now st).deprecated = st.deprecated := by
  have hbatch : ∀ (rows : List AvailableProxy) (st0 : DbState),
      (batchInsertProxies rows st0).deprecated = st0.deprecated := by
    intro rows
    induction rows with
    | nil => intro st0; rfl
    | cons r rest ih =>
      intro st0
      have hstep : batchInsertProxies (r :: rest) st0
          = batchInsertProxies rest
              (if st0.available.any (keyMatch r.ip r.port) then st0
               else { st0 with available := st0.available ++ [r] }) := by
        simp only [batchInsertProxies, List.foldl_cons]
      rw [hstep, ih]
      split <;> rfl
  unfold loadProxiesFromPool
  by_cases hemp : cands.isEmpty = true
  · rw [if_pos hemp]
  · rw [if_neg hemp]
    by_cases hall : (cands.filter
        (fun p => !(st.deprecated.map depKeyStr).contains (infoKey p))).all
        (fun p => (parseIntTen p.port).isSome) = true
    · rw [if_pos hall]
      exact hbatch _ _
    · rw [if_neg hall]

/-- C5 and C7 share nothing; this is the C7 amended claim.  Amended: a refill
filters candidates by EXACT string comparison of the candidate's `ip:port`
against the deprecated rows' `ip:` followed by the decimal rendering of the
numeric port; every row a refill inserts comes from a candidate whose exact
key string is absent from that set (so a candidate with a non-canonical port
string, e.g. a leading zero, is not filtered even though its parsed (address,
port) is deprecated); the deprecated table itself is never modified by a
refill. -/
theorem c7_amended_refill_filters_by_exact_key
    (cands : List ProxyInfo) (now : Nat) (st : DbState) :
    (∀ q ∈ (loadProxiesFromPool cands now st).available,
        q ∈ st.available ∨
        ∃ p ∈ cands, (st.deprecated.map depKeyStr).contains (infoKey p) = false ∧
          q = mkInsertRow p ((parseIntTen p.port).getD 0) now) ∧
    (loadProxiesFromPool cands now st).deprecated = st.deprecated := by
  refine ⟨?_, loadProxiesFromPool_deprecated cands now st⟩
  intro q hq
  unfold loadProxiesFromPool at hq
  by_cases hemp : cands.isEmpty = true
  · rw [if_pos hemp] at hq
    exact Or.inl hq
  · rw [if_neg hemp] at hq
    by_cases hall : (cands.filter
        (fun p => !(st.deprecated.map depKeyStr).contains (infoKey p))).all
        (fun p => (parseIntTen p.port).isSome) = true
    · rw [if_pos hall] at hq
      rcases batchInsertProxies_mem _ _ q hq with h1 | h1
      · exact Or.inl h1
      · rcases List.mem_map.1 h1 with ⟨p, hp, rfl⟩
        rcases List.mem_filter.1 hp with ⟨hpc, hpf⟩
        refine Or.inr ⟨p, hpc, ?_, rfl⟩
        simpa using hpf
    · rw [if_neg hall] at hq
      exact Or.inl hq

/-- Fixture for the C7 witness: a candidate with a canonical port string, not
deprecated. -/
def w7cand : ProxyInfo := ⟨"4.4.4.4", "80", "ProxyScrape", 0⟩

/-- Witness for the C7 amended theorem at a concrete input. -/
theorem c7_witness :
    mkInsertRow w7cand 80 50 ∈ (loadProxiesFromPool [w7cand] 50 ⟨[], []⟩).available ∧
    (mkInsertRow w7cand 80 50 ∈ (⟨[], []⟩ : DbState).available ∨
      ∃ p ∈ [w7cand],
        ((⟨[], []⟩ : DbState).deprecated.map depKeyStr).contains (infoKey p) = false ∧
        mkInsertRow w7cand 80 50 = mkInsertRow p ((parseIntTen p.port).getD 0) 50) :=
  ⟨by decide,
   (c7_amended_refill_filters_by_exact_key [w7cand] 50 ⟨[], []⟩).1
     (mkInsertRow w7cand 80 50) (by decide)⟩

/-- Fixture for the C7 counterexample: a deprecated pair (1.2.3.4, 8080). -/
def c7dep : DeprecatedProxy := ⟨"1.2.3.4", 8080, "ProxyScrape", "http", 10, 0, 0⟩

/-- Fixture for the C7 counterexample: an aggregator candidate for the same
numeric pair, with a leading-zero port string as a feed can deliver it. -/
def c7cand : ProxyInfo := ⟨"1.2.3.4", "08080", "ProxyScrape", 0⟩

/-- C7 counterexample: the candidate's key string "1.2.3.4:08080" differs from
the deprecated rendering "1.2.3.4:8080", so the refill inserts the pair
(1.2.3.4, 8080) into the available table even though that exact pair is in the
deprecated set — refuting the claim that every candidate whose (address, port)
appears in the deprecated set is filtered out before insertion. -/
theorem c7_counterexample :
    ((loadProxiesFromPool [c7cand] 50 ⟨[], [c7dep]⟩).available.any
        (keyMatch "1.2.3.4" 8080)) = true ∧
    ((loadProxiesFromPool [c7cand] 50 ⟨[], [c7dep]⟩).deprecated.any
        (depKeyMatch "1.2.3.4" 8080)) = true := by
  decide

theorem weight_nonneg (p : AvailableProxy) : 0 ≤ calculateWeight p := by
  unfold calculateWeight
  positivity

theorem pickIndex_lt_cons (rand : Nat → ℚ) (total : ℚ) (i : Nat)
    (p0 : AvailableProxy) (rest : List AvailableProxy) :
    pickIndex (rand i * total) ((p0 :: rest).map calculateWeight)
      < (p0 :: rest).length := by
  have h := pickIndex_lt (rand i * total) ((p0 :: rest).map calculateWeight)
    (by simp)
  simpa using h

theorem selectLoop_length (rand : Nat → ℚ) (total : ℚ) :
    ∀ (k i : Nat) (rem : List AvailableProxy),
      (selectLoop rand total k i rem).length = min k rem.length := by
  intro k
  induction k with
  | zero => intro i rem; simp [selectLoop]
  | succ k ih =>
    intro i rem
    cases rem with
    | nil => simp [selectLoop]
    | cons p0 rest =>
      have hlt := pickIndex_lt_cons rand total i p0 rest
      simp only [selectLoop, List.length_cons, ih,
        List.length_eraseIdx_of_lt hlt]
      omega

theorem selectLoop_subset (rand : Nat → ℚ) (total : ℚ) :
    ∀ (k i : Nat) (rem : List AvailableProxy), selectLoop rand total k i rem ⊆ rem := by
  intro k
  induction k with
  | zero => intro i rem; simp [selectLoop]
  | succ k ih =>
    intro i rem
    cases rem with
    | nil => simp [selectLoop]
    | cons p0 rest =>
      intro x hx
      have hlt := pickIndex_lt_cons rand total i p0 rest
      simp only [selectLoop] at hx
      rcases List.mem_cons.1 hx with h | h
      · subst h
        rw [getD_eq_get _ _ _ hlt]
        exact List.get_mem _ _ _
      · exact (List.eraseIdx_sublist (p0 :: rest) _).subset (ih _ _ h)

theorem selectLoop_nodup (rand : Nat → ℚ) (total : ℚ) :
    ∀ (k i : Nat) (rem : List AvailableProxy), rem.Nodup →
      (selectLoop rand total k i rem).Nodup := by
  intro k
  induction k with
  | zero => intro i rem _; simp [selectLoop]
  | succ k ih =>
    intro i rem hrem
    cases rem with
    | nil => simp [selectLoop]
    | cons p0 rest =>
      have hlt := pickIndex_lt_cons rand total i p0 rest
      simp only [selectLoop]
      refine List.nodup_cons.2
        ⟨?_, ih _ _ (hrem.sublist (List.eraseIdx_sublist _ _))⟩
      intro hmem
      have hsub := selectLoop_subset rand total k (i + 1) _ hmem
      rw [getD_eq_get _ _ _ hlt] at hsub
      exact get_not_mem_eraseIdx (p0 :: rest) hrem _ hlt hsub

theorem getWeightedProxies_zero_branch (count : Nat) (proxies : List AvailableProxy)
    (rand : Nat → ℚ) (perm : List Nat)
    (h1 : proxies.isEmpty = false) (h2 : (proxies.map calculateWeight).sum = 0) :
    getWeightedProxies count proxies rand perm
      = (applyPerm perm proxies).take (min count (applyPerm perm proxies).length) := by
  unfold getWeightedProxies
  rw [if_neg (by simp [h1]), if_pos h2]

theorem getWeightedProxies_weighted_branch (count : Nat)
    (proxies : List AvailableProxy) (rand : Nat → ℚ) (perm : List Nat)
    (h1 : proxies.isEmpty = false) (h2 : (proxies.map calculateWeight).sum ≠ 0) :
    getWeightedProxies count proxies rand perm
      = selectLoop rand ((proxies.map calculateWeight).sum) count 0 proxies := by
  unfold getWeightedProxies
  rw [if_neg (by simp [h1]), if_neg h2]

/-- C4: `getWeightedProxies count` on a pool of m distinct records returns
exactly `min count m` pairwise-distinct records of the pool (no error path;
requesting more than m returns all m records, as a permutation of the pool),
and when the pool's total weight is 0 the result is the `count`-prefix of a
shuffle of the pool obtained without consulting the weights. -/
theorem c4_weighted_sampling_counts
    (count : Nat) (proxies : List AvailableProxy) (rand : Nat → ℚ) (perm : List Nat)
    (hnd : proxies.Nodup)
    (hperm : perm.Perm (List.range proxies.length)) :
    (getWeightedProxies count proxies rand perm).length = min count proxies.length ∧
    (getWeightedProxies count proxies rand perm).Nodup ∧
    getWeightedProxies count proxies rand perm ⊆ proxies ∧
    ((proxies.map calculateWeight).sum = 0 →
        getWeightedProxies count proxies rand perm
          = (applyPerm perm proxies).take count) ∧
    (proxies.length ≤ count →
        (getWeightedProxies count proxies rand perm).Perm proxies) := by
  by_cases hemp : proxies.isEmpty = true
  · have hnil : proxies = [] := by
      cases proxies
      · rfl
      · simp at hemp
    subst hnil
    refine ⟨by simp [getWeightedProxies], by simp [getWeightedProxies], ?_, ?_, ?_⟩
    · intro x hx
      simp [getWeightedProxies] at hx
    · intro h
      have happ : applyPerm perm ([] : List AvailableProxy) = [] := by
        simp [applyPerm]
      simp [getWeightedProxies, happ]
    · intro h
      simp [getWeightedProxies]
  · have hemp2 : proxies.isEmpty = false := by
      cases h : proxies.isEmpty
      · rfl
      · exact absurd h hemp
    have hshuf : (applyPerm perm proxies).Perm proxies := applyPerm_perm perm proxies hperm
    have hlen : (applyPerm perm proxies).length = proxies.length := hshuf.length_eq
    by_cases htot : (proxies.map calculateWeight).sum = 0
    · have hres := getWeightedProxies_zero_branch count proxies rand perm hemp2 htot
      have hnds : (applyPerm perm proxies).Nodup := (hshuf.nodup_iff).2 hnd
      refine ⟨?_, ?_, ?_, ?_, ?_⟩
      · rw [hres, List.length_take, hlen]
        omega
      · exact hres ▸ (List.take_sublist _ _).nodup hnds
      · intro x hx
        rw [hres] at hx
        exact hshuf.subset ((List.take_sublist _ _).subset hx)
      · intro _
        rw [hres]
        rcases Nat.le_total count (applyPerm perm proxies).length with hc | hc
        · rw [Nat.min_eq_left hc]
        · rw [Nat.min_eq_right hc, List.take_of_length_le hc,
            List.take_of_length_le (le_refl _)]
      · intro hge
        rw [hres]
        have hmin : min count (applyPerm perm proxies).length
            = (applyPerm perm proxies).length := by omega
        rw [hmin, List.take_length]
        exact hshuf
    · have hres := getWeightedProxies_weighted_branch count proxies rand perm hemp2 htot
      refine ⟨?_, ?_, ?_, ?_, ?_⟩
      · rw [hres]
        exact selectLoop_length _ _ _ _ _
      · rw [hres]
        exact selectLoop_nodup _ _ _ _ _ hnd
      · rw [hres]
        exact selectLoop_subset _ _ _ _ _
      · intro h
        exact absurd h htot
      · intro hge
        rw [hres]
        have hsub : selectLoop rand ((proxies.map calculateWeight).sum) count 0 proxies
            ⊆ proxies := selectLoop_subset _ _ _ _ _
        have hnd2 := selectLoop_nodup rand ((proxies.map calculateWeight).sum)
          count 0 proxies hnd
        have hlen2 := selectLoop_length rand ((proxies.map calculateWeight).sum)
          count 0 proxies
        refine (hnd2.subperm hsub).perm_of_length_le ?_
        rw [hlen2]
        omega

/-- Fixture for the C4 witness: a two-record pool with distinct keys. -/
def w4pool : List AvailableProxy :=
  [⟨"1.1.1.1", 80, "ProxyScrape", 0, 1, none, none, 0, 0⟩,
   ⟨"2.2.2.2", 81, "FreeProxyList", 2, 0, none, none, 0, 0⟩]

/-- Fixture for the C4 witness: a fixed random stream. -/
def w4rand : Nat → ℚ := fun _ => 1/3

/-- Witness for C4 at a concrete input: requesting 5 of a pool of 2 returns
exactly 2 distinct records, a permutation of the pool. -/
theorem c4_witness :
    (getWeightedProxies 5 w4pool w4rand [1, 0]).length = min 5 w4pool.length ∧
    (getWeightedProxies 5 w4pool w4rand [1, 0]).Perm w4pool :=
  ⟨(c4_weighted_sampling_counts 5 w4pool w4rand [1, 0] (by decide) (by decide)).1,
   (c4_weighted_sampling_counts 5 w4pool w4rand [1, 0] (by decide)
     (by decide)).2.2.2.2 (by decide)⟩

theorem walkIdx_none_of_sum_lt :
    ∀ (ws : List ℚ), (∀ w ∈ ws, 0 ≤ w) → ∀ r : ℚ, ws.sum < r →
      walkIdx r ws = none := by
  intro ws
  induction ws with
  | nil => intro _ r _; rfl
  | cons w t ih =>
    intro hnn r hlt
    have hw : 0 ≤ w := hnn w (by simp)
    have htnn : ∀ x ∈ t, 0 ≤ x := fun x hx => hnn x (by simp [hx])
    have htsum : 0 ≤ t.sum := List.sum_nonneg htnn
    simp only [List.sum_cons] at hlt
    have hc : ¬ (r - w ≤ 0) := by linarith
    simp only [walkIdx, if_neg hc, ih htnn (r - w) (by linarith), Option.map_none']

theorem walkIdx_first_crossing :
    ∀ (ws : List ℚ) (r : ℚ) (j : Nat), walkIdx r ws = some j →
      r ≤ (ws.take (j + 1)).sum ∧ ∀ j2 < j, (ws.take (j2 + 1)).sum < r := by
  intro ws
  induction ws with
  | nil => intro r j h; simp [walkIdx] at h
  | cons w t ih =>
    intro r j h
    by_cases hc : r - w ≤ 0
    · simp only [walkIdx, if_pos hc, Option.some.injEq] at h
      subst h
      refine ⟨by simp; linarith, ?_⟩
      intro j2 hj2
      omega
    · simp only [walkIdx, if_neg hc, Option.map_eq_some'] at h
      rcases h with ⟨j0, hj0, rfl⟩
      rcases ih (r - w) j0 hj0 with ⟨h1, h2⟩
      constructor
      · simp only [List.take_succ_cons, List.sum_cons]
        linarith
      · intro j2 hj2
        cases j2 with
        | zero =>
          simp only [List.take_succ_cons, List.take_zero, List.sum_cons,
            List.sum_nil]
          linarith
        | succ j2 =>
          have hj2' : j2 < j0 := by omega
          have := h2 j2 hj2'
          simp only [List.take_succ_cons, List.sum_cons]
          linarith

/-- C5 amended: the selection of `getWeightedProxies` deviates from the
specified algorithm in the total used for the draws — every draw is scaled by
the total weight of the ORIGINAL full pool (never the reduced remaining
total); within a step the walk selects the first item at which the running
weight sum reaches the drawn value, and when the drawn value exceeds the
total weight of the remaining list (possible because the total is not
reduced) the FIRST remaining item is selected; the selected item is removed
and the next draw uses the reduced list with the same original total. -/
theorem c5_amended_draws_use_original_total
    (count : Nat) (proxies : List AvailableProxy) (rand : Nat → ℚ) (perm : List Nat)
    (hne : proxies.isEmpty = false)
    (htot : (proxies.map calculateWeight).sum ≠ 0) :
    getWeightedProxies count proxies rand perm
      = selectLoop rand ((proxies.map calculateWeight).sum) count 0 proxies ∧
    (∀ (total : ℚ) (k i : Nat) (p0 : AvailableProxy) (rest : List AvailableProxy),
        selectLoop rand total (k + 1) i (p0 :: rest)
          = (p0 :: rest).getD
              (pickIndex (rand i * total) ((p0 :: rest).map calculateWeight)) p0
            :: selectLoop rand total k (i + 1)
                ((p0 :: rest).eraseIdx
                  (pickIndex (rand i * total) ((p0 :: rest).map calculateWeight)))) ∧
    (∀ (r : ℚ) (ws : List ℚ), (∀ w ∈ ws, 0 ≤ w) → ws.sum < r →
        pickIndex r ws = 0) ∧
    (∀ (r : ℚ) (ws : List ℚ) (j : Nat), walkIdx r ws = some j →
        r ≤ (ws.take (j + 1)).sum ∧ ∀ j2 < j, (ws.take (j2 + 1)).sum < r) := by
  refine ⟨getWeightedProxies_weighted_branch count proxies rand perm hne htot,
    fun total k i p0 rest => rfl, ?_,
    fun r ws j h => walkIdx_first_crossing ws r j h⟩
  intro r ws hnn hlt
  unfold pickIndex
  rw [walkIdx_none_of_sum_lt ws hnn r hlt]
  rfl

/-- Fixture for the C5 witness: a one-record pool with non-zero weight. -/
def w5pool : List AvailableProxy :=
  [⟨"1.1.1.1", 80, "ProxyScrape", 0, 1, none, none, 0, 0⟩]

/-- Fixture for the C5 witness: a fixed random stream. -/
def w5rand : Nat → ℚ := fun _ => 1/3

/-- Witness for the C5 amended theorem at a concrete input: the weighted
branch is the selection loop seeded with the full pool's total, and an
overshooting draw selects index 0. -/
theorem c5_witness :
    getWeightedProxies 1 w5pool w5rand []
      = selectLoop w5rand ((w5pool.map calculateWeight).sum) 1 0 w5pool ∧
    pickIndex 5 [(1 : ℚ)] = 0 :=
  ⟨(c5_amended_draws_use_original_total 1 w5pool w5rand [] (by decide)
      (by norm_num [calculateWeight, w5pool])).1,
   (c5_amended_draws_use_original_total 1 w5pool w5rand [] (by decide)
      (by norm_num [calculateWeight, w5pool])).2.2.1 5 [(1 : ℚ)]
      (by norm_num) (by norm_num)⟩

/-- Fixture for the C5 counterexample: weight 1/2. -/
def c5poolA : AvailableProxy := ⟨"10.0.0.1", 80, "ProxyScrape", 0, 1, none, none, 0, 0⟩

/-- Fixture for the C5 counterexample: weight 3/10. -/
def c5poolB : AvailableProxy := ⟨"10.0.0.2", 80, "ProxyScrape", 6, 3, none, none, 0, 0⟩

/-- Fixture for the C5 counterexample: weight 1/5. -/
def c5poolC : AvailableProxy := ⟨"10.0.0.3", 80, "ProxyScrape", 3, 1, none, none, 0, 0⟩

/-- Fixture for the C5 counterexample: a pool with total weight 1. -/
def c5pool : List AvailableProxy := [c5poolA, c5poolB, c5poolC]

/-- Fixture for the C5 counterexample: the uniform draws 2/5 then 4/5. -/
def c5rand : Nat → ℚ := fun i => if i = 0 then 2/5 else 4/5

/-- C5 counterexample: on the pool of weights [1/2, 3/10, 1/5] with draws 2/5
and 4/5, the code selects [A, B] (the second draw 4/5 is scaled by the
original total 1, overshoots the remaining total 1/2 and falls back to the
first remaining item), while the specified algorithm — drawing over the
reduced total — selects [A, C]; the code does not follow the specified
algorithm at every step. -/
theorem c5_counterexample :
    getWeightedProxies 2 c5pool c5rand []
      ≠ getWeightedSampleSpec c5rand 2 0 c5pool := by
  have h1 : getWeightedProxies 2 c5pool c5rand [] = [c5poolA, c5poolB] := by
    norm_num [getWeightedProxies, selectLoop, pickIndex, walkIdx, calculateWeight,
      c5pool, c5rand, c5poolA, c5poolB, c5poolC, List.eraseIdx]
  have h2 : getWeightedSampleSpec c5rand 2 0 c5pool = [c5poolA, c5poolC] := by
    norm_num [getWeightedSampleSpec, specWalkIdx, calculateWeight,
      c5pool, c5rand, c5poolA, c5poolB, c5poolC, List.eraseIdx]
  rw [h1, h2]
  decide

end XRelay
